import Mathlib

/-!
Shallow embedding of the data-lake ETL pipeline (`etl.py`).

Tables are lists of records. Nullable JSON fields are `Option String`;
the epoch-millisecond `ts` field of an event is an `Int`. Engine
primitives used by the source (SQL `SELECT DISTINCT`, `dropDuplicates`,
SQL `=` in `WHERE`/`ON` clauses with its null semantics, the calendar
functions `hour`/`day`/`weekofyear`/`month`/`year`/`dayofweek`,
`to_timestamp`, and `monotonically_increasing_id`) are modelled as
executable Lean functions, with the session clock fixed to UTC.
-/

namespace DataLake

/-- A raw song-metadata record, as read schema-on-read from JSON. -/
structure RawSong where
  song_id : Option String
  title : Option String
  artist_id : Option String
  artist_name : Option String
  artist_location : Option String
  artist_latitude : Option String
  artist_longitude : Option String
  year : Option String
  duration : Option String
deriving DecidableEq, Repr

/-- A raw event-log record; `ts` is the epoch-millisecond timestamp. -/
structure RawEvent where
  ts : Int
  userId : Option String
  firstName : Option String
  lastName : Option String
  gender : Option String
  level : Option String
  page : Option String
  sessionId : Option String
  location : Option String
  userAgent : Option String
  artist : Option String
  song : Option String
deriving DecidableEq, Repr

/-- SQL equality as used in `WHERE`/`ON` clauses: a comparison involving
NULL is not true, so null values never satisfy the condition. -/
def sqlEq (a b : Option String) : Bool :=
  match a, b with
  | some x, some y => x == y
  | _, _ => false

/-- Deduplication keeping the first record per key, in source order.
With `key = id` this is SQL `SELECT DISTINCT`; with a column projection
it is `dropDuplicates([column])`. -/
def dedupByKey {α κ : Type} [DecidableEq κ] (key : α → κ) : List α → List α
  | [] => []
  | x :: xs => x :: (dedupByKey key xs).filter fun y => key y ≠ key x

/-- Truncation toward zero, the semantics of Python `int()` on a number. -/
def pyTrunc (q : ℚ) : Int := if 0 ≤ q then ⌊q⌋ else ⌈q⌉

/-- The `get_timestamp` udf: `str(int(int(x) / 1000))`. Python `/` is
true division (modelled exactly over ℚ) and `int()` truncates toward
zero; the result is rendered as a decimal string. -/
def get_timestamp (ts : Int) : String := toString (pyTrunc ((ts : ℚ) / 1000))

/-- The `get_datetime` udf: `str(datetime.fromtimestamp(int(x) / 1000.0))`.
The rendered calendar timestamp is modelled by the instant it denotes:
whole seconds since the epoch (floor of the exact quotient `ts / 1000`)
paired with the leftover milliseconds. -/
def get_datetime (ts : Int) : Int × Int :=
  (⌊((ts : ℚ) / 1000)⌋, ts - 1000 * ⌊((ts : ℚ) / 1000)⌋)

/-- Spark SQL `to_timestamp(ts / 1000)` as used in the songplays query:
the double `ts / 1000` cast to a timestamp, modelled by whole seconds
(floor division) paired with the leftover milliseconds. -/
def to_timestamp_ms (ts : Int) : Int × Int := (Int.fdiv ts 1000, Int.fmod ts 1000)

/-! Calendar functions of the engine (`hour`, `day`, `weekofyear`,
`month`, `year`, `dayofweek`), as deterministic functions of the
instant a modelled timestamp denotes, with the session clock at UTC. -/

/-- Days since the epoch of the instant `(seconds, millis)`. -/
def epochDay (t : Int × Int) : Int := Int.fdiv t.1 86400

/-- Civil date `(year, month, day)` of a day count since 1970-01-01,
by era decomposition over the 400-year Gregorian cycle. -/
def civilFromDays (z0 : Int) : Int × Int × Int :=
  let z := z0 + 719468
  let era := Int.fdiv z 146097
  let doe := z - era * 146097
  let yoe := Int.fdiv (doe - Int.fdiv doe 1460 + Int.fdiv doe 36524 - Int.fdiv doe 146096) 365
  let y := yoe + era * 400
  let doy := doe - (365 * yoe + Int.fdiv yoe 4 - Int.fdiv yoe 100)
  let mp := Int.fdiv (5 * doy + 2) 153
  let d := doy - Int.fdiv (153 * mp + 2) 5 + 1
  let m := mp + (if mp < 10 then 3 else -9)
  (y + (if m ≤ 2 then 1 else 0), m, d)

/-- SQL `year` applied to a timestamp. -/
def yearOf (t : Int × Int) : Int := (civilFromDays (epochDay t)).1

/-- SQL `month` applied to a timestamp. -/
def monthOf (t : Int × Int) : Int := (civilFromDays (epochDay t)).2.1

/-- SQL `day` applied to a timestamp. -/
def dayOf (t : Int × Int) : Int := (civilFromDays (epochDay t)).2.2

/-- SQL `hour` applied to a timestamp. -/
def hourOf (t : Int × Int) : Int := Int.fdiv (Int.fmod t.1 86400) 3600

/-- SQL `dayofweek` applied to a timestamp: 1 = Sunday … 7 = Saturday. -/
def weekdayOf (t : Int × Int) : Int := Int.fmod (epochDay t + 4) 7 + 1

/-- Whether a Gregorian year is a leap year. -/
def isLeap (y : Int) : Bool := (Int.fmod y 4 == 0 && Int.fmod y 100 != 0) || Int.fmod y 400 == 0

/-- Ordinal of a civil date within its year (1-based). -/
def dayOfYear (y m d : Int) : Int :=
  let cum : List Int := [0, 31, 59, 90, 120, 151, 181, 212, 243, 273, 304, 334]
  cum.getD (m - 1).toNat 0 + d + (if 2 < m && isLeap y then 1 else 0)

/-- Number of ISO-8601 weeks in a year (52 or 53). -/
def isoWeeksInYear (y : Int) : Int :=
  let p := fun yy : Int => Int.fmod (yy + Int.fdiv yy 4 - Int.fdiv yy 100 + Int.fdiv yy 400) 7
  if p y == 4 || p (y - 1) == 3 then 53 else 52

/-- SQL `weekofyear` applied to a timestamp: the ISO-8601 week number. -/
def weekOf (t : Int × Int) : Int :=
  let z := epochDay t
  let c := civilFromDays z
  let isoDow := Int.fmod (z + 3) 7 + 1
  let w := Int.fdiv (dayOfYear c.1 c.2.1 c.2.2 - isoDow + 10) 7
  if w < 1 then isoWeeksInYear (c.1 - 1)
  else if isoWeeksInYear c.1 < w then 1
  else w

/-! The four tables the claims are about, translated from the Spark SQL
of `process_song_data` and `process_log_data`. -/

/-- A record of the songs dimension table. -/
structure SongsRow where
  song_id : Option String
  title : Option String
  artist_id : Option String
  year : Option String
  duration : Option String
deriving DecidableEq, Repr

/-- Projection of a raw song record onto the songs table columns. -/
def songRow (s : RawSong) : SongsRow :=
  ⟨s.song_id, s.title, s.artist_id, s.year, s.duration⟩

/-- The songs table: `SELECT DISTINCT song_id, title, artist_id, year,
duration FROM songs_data WHERE song_id IS NOT NULL`, then
`dropDuplicates(['song_id'])`. -/
def songs_table (songs : List RawSong) : List SongsRow :=
  dedupByKey SongsRow.song_id
    (dedupByKey id ((songs.filter fun s => s.song_id ≠ none).map songRow))

/-- A record of the users dimension table. -/
structure UsersRow where
  userId : Option String
  firstName : Option String
  lastName : Option String
  gender : Option String
  level : Option String
deriving DecidableEq, Repr

/-- Projection of a raw event record onto the users table columns. -/
def usersRow (e : RawEvent) : UsersRow :=
  ⟨e.userId, e.firstName, e.lastName, e.gender, e.level⟩

/-- The users table: `SELECT DISTINCT userId, firstName, lastName,
gender, level FROM logs_data WHERE page = 'NextSong' AND userId IS NOT
NULL`, then `dropDuplicates(['userId'])`. -/
def users_table (events : List RawEvent) : List UsersRow :=
  dedupByKey UsersRow.userId
    (dedupByKey id
      ((events.filter fun e => sqlEq e.page (some "NextSong") && e.userId != none).map usersRow))

/-- A record of the time dimension table. -/
structure TimeRow where
  start_time : Int × Int
  hour : Int
  day : Int
  week : Int
  month : Int
  year : Int
  weekday : Int
deriving DecidableEq, Repr

/-- The row of the time table derived from one timestamp value. -/
def timeRowOf (t : Int × Int) : TimeRow :=
  ⟨t, hourOf t, dayOf t, weekOf t, monthOf t, yearOf t, weekdayOf t⟩

/-- The time table: `SELECT DISTINCT datetime AS start_time,
hour(datetime), day(datetime), weekofyear(datetime), month(datetime),
year(datetime), dayofweek(datetime) FROM time_data` — over ALL event
records, with no page filter. -/
def time_table (events : List RawEvent) : List TimeRow :=
  dedupByKey id (events.map fun e => timeRowOf (get_datetime e.ts))

/-- A record of the songplays fact table. -/
structure SongplaysRow where
  songplay_id : Nat
  start_time : Int × Int
  month : Int
  year : Int
  user_id : Option String
  level : Option String
  song_id : Option String
  artist_id : Option String
  session_id : Option String
  location : Option String
  user_agent : Option String
deriving DecidableEq, Repr

/-- The joined (event, song) pairs of the songplays query:
`FROM logs_data JOIN songs_data ON logs_data.artist = songs_data.artist_name`,
an inner join in source order. -/
def joinRows : List RawEvent → List RawSong → List (RawEvent × RawSong)
  | [], _ => []
  | e :: es, songs =>
      ((songs.filter fun s => sqlEq e.artist s.artist_name).map fun s => (e, s))
        ++ joinRows es songs

/-- One songplays record, given its surrogate id and a joined pair. -/
def mkSongplay (i : Nat) (e : RawEvent) (s : RawSong) : SongplaysRow :=
  ⟨i, to_timestamp_ms e.ts, monthOf (to_timestamp_ms e.ts), yearOf (to_timestamp_ms e.ts),
    e.userId, e.level, s.song_id, s.artist_id, e.sessionId, e.location, e.userAgent⟩

/-- Surrogate-id assignment (`monotonically_increasing_id`): ids handed
out by a counter over one deterministic enumeration of the joined rows. -/
def numberFrom (i : Nat) : List (RawEvent × RawSong) → List SongplaysRow
  | [] => []
  | p :: ps => mkSongplay i p.1 p.2 :: numberFrom (i + 1) ps

/-- The songplays table: the inner join of events and songs on
`artist = artist_name`, each joined row given a surrogate id and the
projected columns of the songplays query. -/
def songplays_table (events : List RawEvent) (songs : List RawSong) : List SongplaysRow :=
  numberFrom 0 (joinRows events songs)

/-! Helper lemmas about the embedded engine primitives. -/

theorem sqlEq_eq_true_iff {a : Option String} {v : String} :
    sqlEq a (some v) = true ↔ a = some v := by
  cases a <;> simp [sqlEq]

theorem sqlEq_spec : ∀ {a b : Option String}, sqlEq a b = true →
    ∃ x, a = some x ∧ b = some x
  | some x, some y, h => by
      have hxy : x = y := by simpa [sqlEq] using h
      exact ⟨x, rfl, by rw [hxy]⟩
  | none, _, h => by simp [sqlEq] at h
  | some _, none, h => by simp [sqlEq] at h

theorem sqlEq_none_left (b : Option String) : sqlEq none b = false := by
  cases b <;> rfl

theorem mem_of_mem_dedupByKey {α κ : Type} [DecidableEq κ] (key : α → κ) :
    ∀ (l : List α) (x : α), x ∈ dedupByKey key l → x ∈ l
  | [], x, h => by rw [dedupByKey] at h; exact absurd h (List.not_mem_nil x)
  | a :: as, x, h => by
      rw [dedupByKey] at h
      rcases List.mem_cons.mp h with h1 | h1
      · exact h1 ▸ List.mem_cons_self a as
      · exact List.mem_cons_of_mem a
          (mem_of_mem_dedupByKey key as x (List.mem_of_mem_filter h1))

theorem nodup_map_key_dedupByKey {α κ : Type} [DecidableEq κ] (key : α → κ) :
    ∀ l : List α, ((dedupByKey key l).map key).Nodup
  | [] => by simp [dedupByKey]
  | a :: as => by
      rw [dedupByKey, List.map_cons, List.nodup_cons]
      constructor
      · intro hmem
        rcases List.mem_map.mp hmem with ⟨y, hy, hkey⟩
        have hcond := List.of_mem_filter hy
        simp only [decide_eq_true_eq] at hcond
        exact hcond hkey
      · exact List.Nodup.sublist
          (List.Sublist.map key (List.filter_sublist _))
          (nodup_map_key_dedupByKey key as)

theorem key_mem_dedupByKey {α κ : Type} [DecidableEq κ] (key : α → κ) :
    ∀ (l : List α) (a : α), a ∈ l → key a ∈ (dedupByKey key l).map key
  | [], a, h => by simp at h
  | x :: xs, a, h => by
      rw [dedupByKey, List.map_cons]
      rcases List.mem_cons.mp h with rfl | h1
      · exact List.mem_cons_self _ _
      · by_cases hk : key a = key x
        · rw [hk]; exact List.mem_cons_self _ _
        · have h2 := key_mem_dedupByKey key xs a h1
          rcases List.mem_map.mp h2 with ⟨y, hy, hkey⟩
          refine List.mem_cons_of_mem _ (List.mem_map.mpr ⟨y, ?_, hkey⟩)
          refine List.mem_filter.mpr ⟨hy, ?_⟩
          simp only [decide_eq_true_eq]
          rw [hkey]; exact hk

theorem mem_dedupById {α : Type} [DecidableEq α] (l : List α) (a : α) (h : a ∈ l) :
    a ∈ dedupByKey id l := by
  have h1 := key_mem_dedupByKey id l a h
  simpa using h1

theorem mem_joinRows : ∀ (events : List RawEvent) (songs : List RawSong)
    (p : RawEvent × RawSong), p ∈ joinRows events songs →
    p.1 ∈ events ∧ p.2 ∈ songs ∧ sqlEq p.1.artist p.2.artist_name = true
  | [], _, p, h => by simp [joinRows] at h
  | e :: es, songs, p, h => by
      rw [joinRows] at h
      rcases List.mem_append.mp h with h1 | h1
      · rcases List.mem_map.mp h1 with ⟨s, hs, rfl⟩
        have hs' := List.mem_filter.mp hs
        exact ⟨List.mem_cons_self _ _, hs'.1, hs'.2⟩
      · have h2 := mem_joinRows es songs p h1
        exact ⟨List.mem_cons_of_mem _ h2.1, h2.2⟩

theorem filter_artist_nil_of_not_mem (v : String) (songs : List RawSong)
    (hv : v ∉ songs.filterMap RawSong.artist_name) :
    songs.filter (fun s => sqlEq (some v) s.artist_name) = [] := by
  apply List.filter_eq_nil_iff.mpr
  intro s hs hcond
  rcases sqlEq_spec hcond with ⟨x, hx1, hx2⟩
  obtain rfl : v = x := by injection hx1
  exact hv (List.mem_filterMap.mpr ⟨s, hs, hx2⟩)

theorem length_filter_artist_some_le (v : String) :
    ∀ songs : List RawSong, (songs.filterMap RawSong.artist_name).Nodup →
      (songs.filter fun s => sqlEq (some v) s.artist_name).length ≤ 1
  | [], _ => by simp
  | s :: ss, h => by
      rcases hs : s.artist_name with _ | w
      · have hc : sqlEq (some v) s.artist_name = false := by rw [hs]; rfl
        have h' : (ss.filterMap RawSong.artist_name).Nodup := by
          rw [List.filterMap_cons, hs] at h; exact h
        simpa [List.filter_cons, hc] using length_filter_artist_some_le v ss h'
      · have hcons := h
        rw [List.filterMap_cons, hs] at hcons
        have hw : w ∉ ss.filterMap RawSong.artist_name := (List.nodup_cons.mp hcons).1
        have h' : (ss.filterMap RawSong.artist_name).Nodup := (List.nodup_cons.mp hcons).2
        by_cases hv : v = w
        · have hc : sqlEq (some v) s.artist_name = true := by
            rw [hs]; simp [sqlEq, hv]
          have hnil := filter_artist_nil_of_not_mem v ss (hv ▸ hw)
          simp [List.filter_cons, hc, hnil]
        · have hc : sqlEq (some v) s.artist_name = false := by
            rw [hs]; simp [sqlEq, hv]
          simpa [List.filter_cons, hc] using length_filter_artist_some_le v ss h'

theorem length_filter_artist_le (songs : List RawSong)
    (h : (songs.filterMap RawSong.artist_name).Nodup) (a : Option String) :
    (songs.filter fun s => sqlEq a s.artist_name).length ≤ 1 := by
  cases a with
  | none =>
      have hnil : songs.filter (fun s => sqlEq none s.artist_name) = [] :=
        List.filter_eq_nil_iff.mpr fun s _ => by simp [sqlEq_none_left]
      simp [hnil]
  | some v => exact length_filter_artist_some_le v songs h

theorem length_joinRows_le (songs : List RawSong)
    (h : (songs.filterMap RawSong.artist_name).Nodup) :
    ∀ events : List RawEvent, (joinRows events songs).length ≤ events.length
  | [] => by simp [joinRows]
  | e :: es => by
      rw [joinRows]
      have h1 := length_filter_artist_le songs h e.artist
      have h2 := length_joinRows_le songs h es
      simp only [List.length_append, List.length_map, List.length_cons]
      omega

theorem length_numberFrom : ∀ (i : Nat) (l : List (RawEvent × RawSong)),
    (numberFrom i l).length = l.length
  | _, [] => rfl
  | i, p :: ps => by simp [numberFrom, length_numberFrom (i + 1) ps]

theorem mem_numberFrom : ∀ (i : Nat) (l : List (RawEvent × RawSong)) (r : SongplaysRow),
    r ∈ numberFrom i l → ∃ p ∈ l, ∃ j, r = mkSongplay j p.1 p.2
  | _, [], r, h => by simp [numberFrom] at h
  | i, p :: ps, r, h => by
      rcases List.mem_cons.mp h with rfl | h1
      · exact ⟨p, List.mem_cons_self _ _, i, rfl⟩
      · rcases mem_numberFrom (i + 1) ps r h1 with ⟨q, hq, j, hj⟩
        exact ⟨q, List.mem_cons_of_mem _ hq, j, hj⟩

theorem le_songplay_id_numberFrom : ∀ (i : Nat) (l : List (RawEvent × RawSong))
    (r : SongplaysRow), r ∈ numberFrom i l → i ≤ r.songplay_id
  | _, [], r, h => by simp [numberFrom] at h
  | i, p :: ps, r, h => by
      rcases List.mem_cons.mp h with rfl | h1
      · exact le_refl _
      · exact Nat.le_of_succ_le (le_songplay_id_numberFrom (i + 1) ps r h1)

theorem pairwise_numberFrom : ∀ (i : Nat) (l : List (RawEvent × RawSong)),
    ((numberFrom i l).map SongplaysRow.songplay_id).Pairwise (· < ·)
  | _, [] => List.Pairwise.nil
  | i, p :: ps => by
      simp only [numberFrom, List.map_cons]
      refine List.pairwise_cons.mpr ⟨?_, pairwise_numberFrom (i + 1) ps⟩
      intro j hj
      rcases List.mem_map.mp hj with ⟨r, hr, rfl⟩
      have h1 := le_songplay_id_numberFrom (i + 1) ps r hr
      simpa [mkSongplay] using Nat.lt_of_succ_le h1

/-! Concrete records used to instantiate counterexamples and witnesses. -/

/-- A song record with artist name "A". -/
def songA1 : RawSong :=
  ⟨some "S1", some "T1", some "AR1", some "A", none, none, none, some "2000", some "200.0"⟩

/-- A second song record that shares the artist name "A" with `songA1`. -/
def songA2 : RawSong :=
  ⟨some "S2", some "T2", some "AR2", some "A", none, none, none, some "2001", some "201.0"⟩

/-- A song record with artist name "B". -/
def songB : RawSong :=
  ⟨some "S3", some "T3", some "AR3", some "B", none, none, none, some "2002", some "202.0"⟩

/-- A NextSong event whose artist string is "A". -/
def eventA : RawEvent :=
  ⟨1541106106796, some "26", some "Ryan", some "Smith", some "M", some "paid",
    some "NextSong", some "583", some "San Jose", some "ua", some "A", some "X"⟩

/-- An event identical to `eventA` except its page is "Home". -/
def eventHome : RawEvent := { eventA with page := some "Home" }

/-- An event identical to `eventA` except its artist string is "Q",
matching no song. -/
def eventQ : RawEvent := { eventA with artist := some "Q" }

/-- A NextSong event identical to `eventA` except its userId is null. -/
def eventNullUser : RawEvent := { eventA with userId := none }

/-! The claims. -/

/-- C5: for every input song table, the Songs table contains exactly one
record per distinct non-null song_id, that record's fields match some
source record carrying that song_id, and source records with null
song_id contribute no Songs record. -/
theorem songs_table_spec (l : List RawSong) :
    ((songs_table l).map SongsRow.song_id).Nodup ∧
    (∀ s ∈ l, s.song_id ≠ none → s.song_id ∈ (songs_table l).map SongsRow.song_id) ∧
    (∀ r ∈ songs_table l, ∃ s ∈ l,
        songRow s = r ∧ s.song_id ≠ none ∧ r.song_id = s.song_id) := by
  refine ⟨nodup_map_key_dedupByKey _ _, ?_, ?_⟩
  · intro s hs hnn
    have h1 : songRow s ∈ (l.filter fun s => s.song_id ≠ none).map songRow :=
      List.mem_map_of_mem _ (List.mem_filter.mpr ⟨hs, by simpa using hnn⟩)
    have h2 := mem_dedupById _ _ h1
    have h3 := key_mem_dedupByKey SongsRow.song_id _ _ h2
    exact h3
  · intro r hr
    have h1 := mem_of_mem_dedupByKey SongsRow.song_id _ r hr
    have h2 := mem_of_mem_dedupByKey id _ r h1
    rcases List.mem_map.mp h2 with ⟨s, hs, rfl⟩
    have hs' := List.mem_filter.mp hs
    exact ⟨s, hs'.1, rfl, by simpa using hs'.2, rfl⟩

/-- C6: for every input event table, the Users table contains exactly
one row per distinct non-null userId among records with
page == "NextSong", projecting userId, firstName, lastName, gender and
level; records with null userId or with any other page value contribute
no row. -/
theorem users_table_spec (events : List RawEvent) :
    ((users_table events).map UsersRow.userId).Nodup ∧
    (∀ e ∈ events, e.page = some "NextSong" → e.userId ≠ none →
        e.userId ∈ (users_table events).map UsersRow.userId) ∧
    (∀ r ∈ users_table events, ∃ e ∈ events,
        usersRow e = r ∧ e.page = some "NextSong" ∧ e.userId ≠ none) := by
  refine ⟨nodup_map_key_dedupByKey _ _, ?_, ?_⟩
  · intro e he hpage huid
    have hcond : (sqlEq e.page (some "NextSong") && e.userId != none) = true := by
      rw [Bool.and_eq_true, sqlEq_eq_true_iff]
      exact ⟨hpage, by simpa using huid⟩
    have h1 : usersRow e ∈
        (events.filter fun e =>
          sqlEq e.page (some "NextSong") && e.userId != none).map usersRow :=
      List.mem_map_of_mem _ (List.mem_filter.mpr ⟨he, hcond⟩)
    have h2 := mem_dedupById _ _ h1
    have h3 := key_mem_dedupByKey UsersRow.userId _ _ h2
    exact h3
  · intro r hr
    have h1 := mem_of_mem_dedupByKey UsersRow.userId _ r hr
    have h2 := mem_of_mem_dedupByKey id _ r h1
    rcases List.mem_map.mp h2 with ⟨e, he, rfl⟩
    have he' := List.mem_filter.mp he
    have hc := he'.2
    rw [Bool.and_eq_true] at hc
    exact ⟨e, he'.1, rfl, sqlEq_eq_true_iff.mp hc.1, by simpa using hc.2⟩

/-- C4: the Time table is derived from ALL event records, with no page
filter: every event's derived start_time appears, each start_time value
appears in exactly one row, every row's hour, day, week, month, year
and weekday fields are the calendar functions of its start_time, and
every row comes from some event. -/
theorem time_table_spec (events : List RawEvent) :
    ((time_table events).map TimeRow.start_time).Nodup ∧
    (∀ e ∈ events, get_datetime e.ts ∈ (time_table events).map TimeRow.start_time) ∧
    (∀ r ∈ time_table events, r = timeRowOf r.start_time ∧
        ∃ e ∈ events, r.start_time = get_datetime e.ts) := by
  have himg : ∀ r ∈ time_table events, ∃ e ∈ events, r = timeRowOf (get_datetime e.ts) := by
    intro r hr
    have h1 := mem_of_mem_dedupByKey id _ r hr
    rcases List.mem_map.mp h1 with ⟨e, he, rfl⟩
    exact ⟨e, he, rfl⟩
  refine ⟨?_, ?_, ?_⟩
  · have hnd : (time_table events).Nodup := by
      have h1 := nodup_map_key_dedupByKey id
        (events.map fun e => timeRowOf (get_datetime e.ts))
      simpa [time_table] using h1
    refine List.Nodup.map_on ?_ hnd
    intro x hx y hy hxy
    rcases himg x hx with ⟨e1, _, rfl⟩
    rcases himg y hy with ⟨e2, _, rfl⟩
    exact congrArg timeRowOf hxy
  · intro e he
    have h1 : timeRowOf (get_datetime e.ts) ∈
        events.map fun e => timeRowOf (get_datetime e.ts) :=
      List.mem_map_of_mem _ he
    exact List.mem_map.mpr ⟨_, mem_dedupById _ _ h1, rfl⟩
  · intro r hr
    rcases himg r hr with ⟨e, he, rfl⟩
    exact ⟨rfl, e, he, rfl⟩

/-- C1 counterexample: one event whose artist string is shared by two
song records yields two Songplays rows, so the Songplays table can hold
strictly more rows than the event table. -/
theorem songplays_can_exceed_events :
    ¬ ((songplays_table [eventA] [songA1, songA2]).length
        ≤ ([eventA] : List RawEvent).length) := by decide

/-- C1 (amended): every Songplays row originates, unconditionally, from
an event whose artist string equals some song's artist_name, and an
event matching no song contributes no joined row; the row-count bound
holds whenever the non-null artist_name values of the song source are
pairwise distinct. -/
theorem songplays_inner_join (events : List RawEvent) (songs : List RawSong) :
    ((songs.filterMap RawSong.artist_name).Nodup →
        (songplays_table events songs).length ≤ events.length) ∧
    (∀ row ∈ songplays_table events songs, ∃ e ∈ events, ∃ s ∈ songs,
        sqlEq e.artist s.artist_name = true ∧ row.user_id = e.userId ∧
        row.song_id = s.song_id ∧ row.artist_id = s.artist_id) ∧
    (∀ e ∈ events, (∀ s ∈ songs, sqlEq e.artist s.artist_name = false) →
        ∀ p ∈ joinRows events songs, p.1 ≠ e) := by
  refine ⟨?_, ?_, ?_⟩
  · intro h
    rw [songplays_table, length_numberFrom]
    exact length_joinRows_le songs h events
  · intro row hrow
    rcases mem_numberFrom 0 _ row hrow with ⟨p, hp, j, rfl⟩
    rcases mem_joinRows _ _ p hp with ⟨he, hs, hsql⟩
    exact ⟨p.1, he, p.2, hs, hsql, rfl, rfl, rfl⟩
  · intro e _ hnone p hp heq
    rcases mem_joinRows _ _ p hp with ⟨_, hs, hsql⟩
    rw [heq] at hsql
    exact absurd hsql (by simp [hnone p.2 hs])

/-- Witness for C1: the amended statement instantiated at the
duplicate-artist run of the counterexample, where the unconditional
origination and dropped-event parts apply. -/
theorem songplays_inner_join_witness :
    ((([songA1, songA2] : List RawSong).filterMap RawSong.artist_name).Nodup →
        (songplays_table [eventA] [songA1, songA2]).length
          ≤ ([eventA] : List RawEvent).length) ∧
    (∀ row ∈ songplays_table [eventA] [songA1, songA2],
        ∃ e ∈ ([eventA] : List RawEvent), ∃ s ∈ ([songA1, songA2] : List RawSong),
          sqlEq e.artist s.artist_name = true ∧ row.user_id = e.userId ∧
          row.song_id = s.song_id ∧ row.artist_id = s.artist_id) ∧
    (∀ e ∈ ([eventA] : List RawEvent),
        (∀ s ∈ ([songA1, songA2] : List RawSong), sqlEq e.artist s.artist_name = false) →
        ∀ p ∈ joinRows [eventA] [songA1, songA2], p.1 ≠ e) :=
  songplays_inner_join [eventA] [songA1, songA2]

/-- C2: the songplays query has no page filter, so an event whose page
is "Home" still produces a Songplays row whenever its artist string
matches a song's artist_name — evaluation of the code at the failing
input of the claim. -/
theorem non_nextsong_event_produces_songplay :
    eventHome.page = some "Home" ∧ eventHome.page ≠ some "NextSong" ∧
    (songplays_table [eventHome] [songA1]).length = 1 := by decide

/-- C3 counterexample: for an event whose artist string "Q" matches no
song, the Songplays table holds no row at all, in particular no row
with null song_id and artist_id. -/
theorem no_null_song_id_row :
    ¬ ∃ row ∈ songplays_table [eventQ] [songA1],
        row.song_id = none ∧ row.artist_id = none := by decide

/-- C3 (amended): an event whose artist string matches no song's
artist_name is dropped by the inner join — it contributes no joined row,
and alone it yields an empty Songplays table. -/
theorem unmatched_event_dropped (events : List RawEvent) (songs : List RawSong)
    (e : RawEvent) (h : ∀ s ∈ songs, sqlEq e.artist s.artist_name = false) :
    (∀ p ∈ joinRows events songs, p.1 ≠ e) ∧ songplays_table [e] songs = [] := by
  constructor
  · intro p hp heq
    rcases mem_joinRows _ _ p hp with ⟨_, hs, hsql⟩
    rw [heq] at hsql
    exact absurd hsql (by simp [h p.2 hs])
  · rw [songplays_table, joinRows]
    have hnil : songs.filter (fun s => sqlEq e.artist s.artist_name) = [] :=
      List.filter_eq_nil_iff.mpr fun s hs => by simp [h s hs]
    simp [hnil, joinRows, numberFrom]

/-- Witness for C3: the concrete unmatched event "Q" against the song
source containing only artist "A". -/
theorem unmatched_event_dropped_witness :
    (∀ s ∈ ([songA1] : List RawSong), sqlEq eventQ.artist s.artist_name = false) ∧
    ((∀ p ∈ joinRows [eventQ] [songA1], p.1 ≠ eventQ) ∧
      songplays_table [eventQ] [songA1] = []) :=
  ⟨by decide, unmatched_event_dropped [eventQ] [songA1] eventQ (by decide)⟩

/-- C7: the start_time stored in a Songplays row is the timestamp
`to_timestamp(ts / 1000)` of its event, and for every
epoch-millisecond integer ts that value agrees exactly with the
independently computed `get_datetime` value. -/
theorem start_time_agrees (ts : Int) (i : Nat) (e : RawEvent) (s : RawSong) :
    (mkSongplay i e s).start_time = to_timestamp_ms e.ts ∧
    to_timestamp_ms ts = get_datetime ts := by
  refine ⟨rfl, ?_⟩
  unfold to_timestamp_ms get_datetime
  have hfloor : ⌊((ts : ℚ) / 1000)⌋ = Int.fdiv ts 1000 := by
    rw [show ((1000 : ℚ)) = ((1000 : ℕ) : ℚ) by norm_num]
    rw [Rat.floor_intCast_div_natCast]
    exact (Int.fdiv_eq_ediv ts (by decide)).symm
  rw [hfloor]
  have hmod := Int.fmod_add_fdiv ts 1000
  simp only [Prod.mk.injEq]
  exact ⟨trivial, by omega⟩

/-- C8 counterexample: at ts = -1500 the udf computes
str(int(-1.5)) = "-1", which is the truncation toward zero, not the
floor "-2": the division rounds upward on negative input. -/
theorem get_timestamp_negative_rounds_up :
    get_timestamp (-1500) ≠ toString (Int.fdiv (-1500) 1000) := by
  have hceil : (⌈((-1500 : Int) : ℚ) / 1000⌉ : Int) = -1 := by
    rw [Int.ceil_eq_iff]
    norm_num
  have h1 : get_timestamp (-1500) = toString (-1 : Int) := by
    unfold get_timestamp pyTrunc
    rw [if_neg (by norm_num), hceil]
  rw [h1, show Int.fdiv (-1500) 1000 = -2 from by decide]
  decide

/-- C8 (amended): for every nonnegative epoch-millisecond integer ts,
get_timestamp renders exactly floor(ts / 1000) as a decimal string;
in general the udf truncates the quotient toward zero. -/
theorem get_timestamp_floor_of_nonneg (ts : Int) (h : 0 ≤ ts) :
    get_timestamp ts = toString (Int.fdiv ts 1000) := by
  unfold get_timestamp pyTrunc
  have hq : (0 : ℚ) ≤ (ts : ℚ) / 1000 :=
    div_nonneg (by exact_mod_cast h) (by norm_num)
  rw [if_pos hq]
  congr 1
  rw [show ((1000 : ℚ)) = ((1000 : ℕ) : ℚ) by norm_num]
  rw [Rat.floor_intCast_div_natCast]
  exact (Int.fdiv_eq_ediv ts (by decide)).symm

/-- Witness for C8: the amended statement at the concrete timestamp
1541106106796. -/
theorem get_timestamp_floor_witness :
    (0 : Int) ≤ 1541106106796 ∧
    get_timestamp 1541106106796 = toString (Int.fdiv 1541106106796 1000) :=
  ⟨by decide, get_timestamp_floor_of_nonneg 1541106106796 (by decide)⟩

/-- C9: within a single run the songplay_id values of the Songplays
rows are strictly increasing in the enumeration order of the joined
rows, hence pairwise distinct. -/
theorem songplay_ids_strictly_increasing (events : List RawEvent) (songs : List RawSong) :
    ((songplays_table events songs).map SongplaysRow.songplay_id).Pairwise (· < ·) ∧
    ((songplays_table events songs).map SongplaysRow.songplay_id).Nodup :=
  ⟨pairwise_numberFrom 0 _, (pairwise_numberFrom 0 _).imp Nat.ne_of_lt⟩

/-- C10: the songplays join applies no non-null filter to event key
fields: an event with null userId whose artist matches a song yields a
Songplays row with null user_id, while the Users table excludes that
same record. -/
theorem songplays_keeps_null_user :
    (songplays_table [eventNullUser] [songA1]).map SongplaysRow.user_id = [none] ∧
    eventNullUser.page = some "NextSong" ∧
    users_table [eventNullUser] = [] := by decide

end DataLake
